import Mathlib

/-!
Shallow embedding of the SuperNodes repository (src/supernodes/nodes.py and
src/supernodes/operations.py) and verification of the frozen claims.

Modelling conventions:
* Python runtime values relevant to the claims are modelled by `PyVal`
  (None, bool, int, float, Decimal, str, list).  Python `float` and
  `decimal.Decimal` are modelled as exact rationals: every comparison a claim
  exercises is between values where exact-decimal arithmetic and IEEE-754
  arithmetic agree (identical literals, or integers).
* Raising an exception is modelled by `Except String`; the string names the
  Python exception.
* `dict` objects (kwargs, other_attrs) are modelled as association lists in
  insertion order, matching Python 3 dict ordering.
-/

namespace SuperNodes

/-- Model of the Python values the claims manipulate. -/
inductive PyVal : Type where
  | none : PyVal
  | bool : Bool → PyVal
  | int : Int → PyVal
  | float : ℚ → PyVal
  | decimal : ℚ → PyVal
  | str : String → PyVal
  | list : List PyVal → PyVal
  deriving Repr

/-- Python truthiness (`bool(v)`), for the value categories modelled. -/
def pyTruthy : PyVal → Bool
  | .none => false
  | .bool b => b
  | .int n => n ≠ 0
  | .float q => q ≠ 0
  | .decimal q => q ≠ 0
  | .str s => s ≠ ""
  | .list l => !l.isEmpty

/-- Numeric view: Python compares bool/int/float/Decimal by numeric value
    (`True == 1`, `Decimal("-10") == -10`, ...). -/
def asNum? : PyVal → Option ℚ
  | .bool b => some (if b then mkRat 1 1 else mkRat 0 1)
  | .int n => some (n : ℚ)
  | .float q => some q
  | .decimal q => some q
  | _ => Option.none

mutual
/-- Python `==` on the modelled values: numeric categories compare by value,
    strings by content, lists elementwise, None only to None; values of
    unrelated categories compare unequal (Python returns False, it does not
    raise, for `==`). -/
def pyEqB : PyVal → PyVal → Bool
  | .none, .none => true
  | .str s, .str t => s == t
  | .list xs, .list ys => pyEqList xs ys
  | a, b =>
    match asNum? a, asNum? b with
    | some p, some q => p == q
    | _, _ => false

def pyEqList : List PyVal → List PyVal → Bool
  | [], [] => true
  | x :: xs, y :: ys => pyEqB x y && pyEqList xs ys
  | _, _ => false
end

mutual
/-- Python ordering (`<`, `<=`, `>`, `>=`): defined between two numerics, two
    strings, or two lists (lexicographically, skipping `==`-equal prefixes);
    any other pair raises TypeError. -/
def pyCmp : PyVal → PyVal → Except String Ordering
  | .str s, .str t => .ok (compare s t)
  | .list xs, .list ys => pyCmpList xs ys
  | a, b =>
    match asNum? a, asNum? b with
    | some p, some q => .ok (compare p q)
    | _, _ => .error "TypeError: unsupported operand types for comparison"

def pyCmpList : List PyVal → List PyVal → Except String Ordering
  | [], [] => .ok .eq
  | [], _ :: _ => .ok .lt
  | _ :: _, [] => .ok .gt
  | x :: xs, y :: ys =>
    if pyEqB x y then pyCmpList xs ys else pyCmp x y
end

/-- The `operators` dict of operations.py: maps the six comparison symbols to
    the corresponding `operator` function; any other key raises KeyError. -/
def applyOperator (middle : String) (a b : PyVal) : Except String Bool :=
  if middle = "==" then .ok (pyEqB a b)
  else if middle = "!=" then .ok (!pyEqB a b)
  else if middle = "<" then do pure ((← pyCmp a b) = .lt)
  else if middle = "<=" then do pure ((← pyCmp a b) ≠ .gt)
  else if middle = ">=" then do pure ((← pyCmp a b) ≠ .lt)
  else if middle = ">" then do pure ((← pyCmp a b) = .gt)
  else .error "KeyError: operator symbol not recognized"

/-! ### String classification helpers (`_is_int`, `_is_decimal`) -/

/-- `_is_int` of operations.py: `string_num.isdigit()`.  Python's `isdigit`
    is true iff the string is nonempty and every character is a digit (a
    leading sign already fails it).  Non-ASCII digit characters are outside
    the modelled domain. -/
def isIntStr (s : String) : Bool := s ≠ "" && s.data.all Char.isDigit

/-- `int(s)` for a digit-only string. -/
def digitsToNat (ds : List Char) : Nat :=
  ds.foldl (fun a c => a * 10 + (c.toNat - 48)) 0

/-- The rational `sign * mant * 10 ^ e`, assembled with integer arithmetic
    and a single `mkRat`. -/
def decToRat (sign : Int) (mant : Nat) (e : Int) : ℚ :=
  if 0 ≤ e then mkRat (sign * (mant * 10 ^ e.toNat : Nat)) 1
  else mkRat (sign * mant) (10 ^ (-e).toNat)

/-- Model of Python `float(s)` / `Decimal(s)` on a finite decimal literal:
    optional sign, digits with an optional fractional part, optional
    exponent.  Returns the exact rational value; `Option.none` models the
    ValueError raised on an unparseable string.  (`inf`, `nan` and embedded
    whitespace/underscores are outside the modelled token domain.) -/
def parseFloat? (s : String) : Option ℚ :=
  let expOf : List Char → Option Int := fun r =>
    match r with
    | [] => some 0
    | e :: r2 =>
      if e = 'e' ∨ e = 'E' then
        let sr : Int × List Char :=
          match r2 with
          | '+' :: t => (1, t)
          | '-' :: t => (-1, t)
          | t => (1, t)
        if sr.2 ≠ [] ∧ sr.2.all Char.isDigit then
          some (sr.1 * (digitsToNat sr.2 : Int))
        else Option.none
      else Option.none
  let core : Int → List Char → Option ℚ := fun sign cs =>
    let ip := cs.takeWhile Char.isDigit
    let r1 := cs.dropWhile Char.isDigit
    match r1 with
    | '.' :: r2 =>
      let fp := r2.takeWhile Char.isDigit
      let r3 := r2.dropWhile Char.isDigit
      if ip.isEmpty ∧ fp.isEmpty then Option.none
      else (expOf r3).map (fun ex => decToRat sign (digitsToNat (ip ++ fp)) (ex - fp.length))
    | r =>
      if ip.isEmpty then Option.none
      else (expOf r).map (fun ex => decToRat sign (digitsToNat ip) ex)
  match s.data with
  | '+' :: cs => core 1 cs
  | '-' :: cs => core (-1) cs
  | cs => core 1 cs

/-- `_is_decimal` of operations.py: not `_is_int`, and `float(s)` succeeds. -/
def isDecimalStr (s : String) : Bool := !isIntStr s && (parseFloat? s).isSome

/-! ### Models of the two regular-expression uses in `InEquality.__call__` -/

/-- A regex `\w` character. -/
def isWordChar (c : Char) : Bool := c.isAlphanum || c = '_'

/-- Index (0-based) of the first `[` that immediately follows a word
    character: the opening bracket of the leftmost match of
    `\w+\[(.+)\]`, when one exists. -/
def firstViableOpen (cs : List Char) : Option Nat :=
  go cs 0
where
  go : List Char → Nat → Option Nat
  | a :: b :: rest, i =>
    if isWordChar a && b = '[' then some (i + 1) else go (b :: rest) (i + 1)
  | _, _ => Option.none

/-- Index of the last `]` at position ≥ `lo`. -/
def lastCloseFrom (cs : List Char) (lo : Nat) : Option Nat :=
  go cs 0 Option.none
where
  go : List Char → Nat → Option Nat → Option Nat
  | [], _, acc => acc
  | c :: rest, i, acc =>
    go rest (i + 1) (if c = ']' ∧ lo ≤ i then some i else acc)

/-- Model of `re.findall(r"\w+\[(.+)\]", s)` on a whitespace-free token.
    The leftmost match opens at the first `[` preceded by a word character;
    the greedy `(.+)` then extends to the last `]` of the string (which must
    leave the group nonempty, i.e. lie ≥ 2 after the `[`).  Everything after
    that `]` contains no further `]`, so there is at most one match: for
    `x[0]` this yields `["0"]`, but for `x[1][2]` it yields the single
    group `["1][2"]` — the two suffixes are never separated. -/
def reFindallWordBracket (s : String) : List String :=
  let cs := s.data
  match firstViableOpen cs with
  | Option.none => []
  | some i =>
    match lastCloseFrom cs (i + 2) with
    | Option.none => []
    | some j => [String.mk ((cs.drop (i + 1)).take (j - i - 1))]

/-- Does `key` occur at the head of `cs` followed by `[`, at least one
    character, and a later `]`?  (One candidate position of the search
    pattern `key\[(.+)\]`.) -/
def keyBracketAt (key cs : List Char) : Bool :=
  key.isPrefixOf cs &&
  (match cs.drop key.length with
   | '[' :: ds => (ds.drop 1).contains ']'
   | _ => false)

/-- Model of `re.search(f"{key}" + r"\[(.+)\]", s) is not None` for a key
    made of word characters: some position of `s` starts `key` followed by a
    bracketed nonempty group. -/
def searchKeyBracket (key s : String) : Bool :=
  go key.data s.data
where
  go (k : List Char) : List Char → Bool
  | [] => keyBracketAt k []
  | cs@(_ :: rest) => keyBracketAt k cs || go k rest

/-! ### The `InEquality` class of operations.py -/

/-- The parsed state of an `InEquality` object: the three
    whitespace-separated tokens plus the `strings_to_numbers` flag. -/
structure InEquality where
  left : String
  middle : String
  right : String
  strings_to_numbers : Bool
  deriving Repr

/-- Helper for Python's argumentless `str.split()`: maximal runs of
    non-whitespace characters (empty pieces are never produced). -/
def splitWsAux : List Char → List Char → List String
  | [], acc => if acc.isEmpty then [] else [String.mk acc.reverse]
  | c :: rest, acc =>
    if c.isWhitespace then
      (if acc.isEmpty then [] else [String.mk acc.reverse]) ++ splitWsAux rest []
    else
      splitWsAux rest (c :: acc)

/-- Python `s.split()`. -/
def pySplit (s : String) : List String := splitWsAux s.data []

/-- `InEquality.__init__`: `inequality.split()` must give exactly 3 parts,
    else ValueError. -/
def InEquality.make (inequality : String) (strings_to_numbers : Bool := true) :
    Except String InEquality :=
  let parts := pySplit inequality
  match parts with
  | [l, m, r] => .ok ⟨l, m, r, strings_to_numbers⟩
  | _ => .error "ValueError: splitting the inequality did not give 3 parts"

/-- The kwargs of a call: a Python dict in insertion order. -/
abbrev Bindings := List (String × PyVal)

/-- The substitution loop of `__call__`: the first binding whose key equals
    the token, or whose key followed by a bracketed group occurs in the
    token, replaces it (`break`); otherwise the token stays a string. -/
def substOperand (token : String) (kwargs : Bindings) : PyVal :=
  match kwargs.find? (fun kv => token == kv.1 || searchKeyBracket kv.1 token) with
  | some kv => kv.2
  | Option.none => .str token

/-- Coercion applied to the left operand when `strings_to_numbers` is set:
    `int(left)` for digit-only strings, else `Decimal(left)` for float-
    parseable strings, else unchanged.  Non-strings are untouched. -/
def coerceLeft (v : PyVal) : PyVal :=
  match v with
  | .str s =>
    if isIntStr s then .int (digitsToNat s.data : Int)
    else if isDecimalStr s then .decimal ((parseFloat? s).getD 0)
    else .str s
  | v => v

/-- Coercion applied to the right operand: as `coerceLeft` but the decimal
    branch uses `float(right)`. -/
def coerceRight (v : PyVal) : PyVal :=
  match v with
  | .str s =>
    if isIntStr s then .int (digitsToNat s.data : Int)
    else if isDecimalStr s then .float ((parseFloat? s).getD 0)
    else .str s
  | v => v

/-- Numeric coercion of an index string captured from a bracket group. -/
def coerceIndex (s : String) : PyVal :=
  if isIntStr s then .int (digitsToNat s.data : Int)
  else if isDecimalStr s then .float ((parseFloat? s).getD 0)
  else .str s

/-- Python sequence indexing `v[idx]` for the modelled values: lists and
    strings accept an int (bools are ints; negative indices count from the
    end, out of range raises IndexError); any other combination raises
    TypeError. -/
def applyIndex (v idx : PyVal) : Except String PyVal :=
  let asIdx : PyVal → Option Int := fun w =>
    match w with
    | .int n => some n
    | .bool b => some (if b then 1 else 0)
    | _ => Option.none
  match v, asIdx idx with
  | .list l, some i =>
    let n : Int := (l.length : Int)
    let j : Int := if i < 0 then i + n else i
    match l.get? j.toNat with
    | some x => if 0 ≤ j then .ok x else .error "IndexError: list index out of range"
    | Option.none => .error "IndexError: list index out of range"
  | .str s, some i =>
    let n : Int := (s.data.length : Int)
    let j : Int := if i < 0 then i + n else i
    match s.data.get? j.toNat with
    | some c => if 0 ≤ j then .ok (.str (String.mk [c])) else .error "IndexError: string index out of range"
    | Option.none => .error "IndexError: string index out of range"
  | _, _ => .error "TypeError: indices must be integers"

/-- `InEquality.__call__`.  Note the structure copied from the source: the
    bracket-index groups are extracted from the raw tokens up front, but the
    loops that *apply* them sit inside the `if self.strings_to_numbers:`
    block, so no indexing happens when coercion is disabled. -/
def InEquality.call (e : InEquality) (kwargs : Bindings) : Except String Bool := do
  let leftIndices := reFindallWordBracket e.left
  let rightIndices := reFindallWordBracket e.right
  let left0 := substOperand e.left kwargs
  let right0 := substOperand e.right kwargs
  let (left1, right1) ←
    if e.strings_to_numbers then do
      let l0 := coerceLeft left0
      let r0 := coerceRight right0
      let l ← leftIndices.foldlM (fun acc s => applyIndex acc (coerceIndex s)) l0
      let r ← rightIndices.foldlM (fun acc s => applyIndex acc (coerceIndex s)) r0
      pure (l, r)
    else
      pure (left0, right0)
  applyOperator e.middle left1 right1

/-! ### The `SuperNode` class of nodes.py -/

/-- The `function` attribute of a node: a string inequality (dispatched on
    `type(self.function) is str`) or a callable, modelled as a Lean function
    from kwargs to a result (with a tag standing in for object identity). -/
inductive NodeFun : Type where
  | expr (s : String)
  | call (tag : Nat) (f : List (String × PyVal) → Except String PyVal)

/-- Truthiness of the `function` attribute (`if not self.function`): None
    and the empty string are falsy, callables are truthy. -/
def funTruthy : Option NodeFun → Bool
  | Option.none => false
  | some (.expr s) => s ≠ ""
  | some (.call _ _) => true

/-- Python `==` between two `function` attribute values: strings compare by
    content, callables by identity (tag), mixed kinds and None are unequal
    to everything but None. -/
def optFunEqB : Option NodeFun → Option NodeFun → Bool
  | Option.none, Option.none => true
  | some (.expr a), some (.expr b) => a == b
  | some (.call t _), some (.call u _) => t == u
  | _, _ => false

/-- A `SuperNode` object: fields in the order `__init__` assigns them
    (which fixes the `__dict__` iteration order used by serialization). -/
inductive SNode : Type where
  | mk (name : PyVal) (value : PyVal) (id : PyVal)
       (children : List SNode)
       (function : Option NodeFun)
       (child_name_if_true : PyVal) (child_name_if_false : PyVal)
       (other_attrs : List (String × PyVal))

def SNode.name : SNode → PyVal
  | .mk n _ _ _ _ _ _ _ => n

def SNode.value : SNode → PyVal
  | .mk _ v _ _ _ _ _ _ => v

def SNode.id : SNode → PyVal
  | .mk _ _ i _ _ _ _ _ => i

def SNode.children : SNode → List SNode
  | .mk _ _ _ cs _ _ _ _ => cs

def SNode.function : SNode → Option NodeFun
  | .mk _ _ _ _ f _ _ _ => f

def SNode.child_name_if_true : SNode → PyVal
  | .mk _ _ _ _ _ ct _ _ => ct

def SNode.child_name_if_false : SNode → PyVal
  | .mk _ _ _ _ _ _ cf _ => cf

def SNode.other_attrs : SNode → List (String × PyVal)
  | .mk _ _ _ _ _ _ _ oa => oa

/-- Replace the `children` list, keeping every other field. -/
def SNode.withChildren : SNode → List SNode → SNode
  | .mk n v i _ f ct cf oa, cs => .mk n v i cs f ct cf oa

/-- `SuperNode(value=object)` with every other argument defaulted. -/
def SNode.ofValue (v : PyVal) : SNode :=
  .mk PyVal.none v PyVal.none [] Option.none PyVal.none PyVal.none []

/-- The argument of `append`/`insert`: an existing node or any other value. -/
inductive NodeOrVal : Type where
  | node (n : SNode)
  | val (v : PyVal)

/-- `_object_to_node`: a `SuperNode` passes through, anything else becomes a
    fresh node holding it as `value`. -/
def objectToNode : NodeOrVal → SNode
  | .node n => n
  | .val v => SNode.ofValue v

/-- `has_children`. -/
def SNode.has_children (self : SNode) : Bool := self.children.length > 0

/-- Python `v is None`: an identity test against the None singleton. -/
def PyVal.isNone : PyVal → Bool
  | .none => true
  | _ => false

/-- `get_children_names`: names of the direct children whose `name` is not
    None, in child order. -/
def SNode.get_children_names (self : SNode) : List PyVal :=
  (self.children.filter (fun c => !c.name.isNone)).map SNode.name

/-- Python `x in names` over the result of `get_children_names` (element
    comparison by `==`). -/
def nameInList (x : PyVal) (names : List PyVal) : Bool :=
  names.any (fun nm => pyEqB x nm)

/-- The loop of `get_child_from_name`: first child whose `name` equals the
    argument, else the implicit `return None`. -/
def getChildLoop : List SNode → PyVal → Option SNode
  | [], _ => Option.none
  | c :: rest, nm => if pyEqB c.name nm then some c else getChildLoop rest nm

/-- `get_child_from_name`. -/
def SNode.get_child_from_name (self : SNode) (nm : PyVal) : Option SNode :=
  getChildLoop self.children nm

/-- `append`: coerce, reject a name already among the children's (non-None)
    names with ValueError, else append at the end.  The state on error is
    unchanged, which the `Except` encoding makes explicit. -/
def SNode.append (self : SNode) (arg : NodeOrVal) : Except String SNode :=
  let node := objectToNode arg
  if nameInList node.name self.get_children_names then
    .error "ValueError: Two children of the same Node cannot have the same 'name' attribute."
  else
    .ok (self.withChildren (self.children ++ [node]))

/-- `insert` as written in the source: after the coercion and the duplicate-
    name check it calls `self.insert(index, node)` — itself — with identical
    arguments, never touching `self.children`.  Execution is modelled with
    explicit fuel; a `none` result means the call is still recursing when
    the fuel runs out (Python: RecursionError). -/
def SNode.insertFuel (fuel : Nat) (self : SNode) (index : Int) (arg : NodeOrVal) :
    Option (Except String SNode) :=
  match fuel with
  | 0 => Option.none
  | fuel + 1 =>
    let node := objectToNode arg
    if nameInList node.name self.get_children_names then
      some (.error "ValueError: Two children of the same Node cannot have the same 'name' attribute.")
    else
      self.insertFuel fuel index (.node node)

/-- Python truthiness of an optional list argument (None and `[]` falsy). -/
def truthyOptList {α : Type} : Option (List α) → Bool
  | Option.none => false
  | some l => !l.isEmpty

/-- `split`.  The loop `for attr in [names, values, ids, functions,
    other_attrs_lists]` evaluates `attr.__name__` for every truthy entry —
    both in `attrs[attr.__name__] = attr` and inside the f-string of the
    length-mismatch `raise` — and Python lists and dicts have no
    `__name__`, so ANY truthy optional argument raises AttributeError
    before any child is created.  With all optional arguments falsy the
    defaults stand and `num` all-None children are appended. -/
def SNode.split (self : SNode) (num : Nat)
    (names values ids functions : Option (List PyVal))
    (other_attrs_lists : List (String × List PyVal)) :
    Except String (SNode × List SNode) :=
  if truthyOptList names || truthyOptList values || truthyOptList ids ||
     truthyOptList functions || !other_attrs_lists.isEmpty then
    .error "AttributeError: 'list' object has no attribute '__name__'"
  else
    let new_children := (List.range num).map (fun _ =>
      SNode.mk PyVal.none PyVal.none PyVal.none [] Option.none PyVal.none PyVal.none [])
    .ok (self.withChildren (self.children ++ new_children), new_children)

mutual
/-- `find_node`: for each child in order, return the CHILD if its `id`
    matches, and also return the CHILD (not the recursive result) when the
    recursive search below it finds anything truthy. -/
def SNode.find_node : SNode → PyVal → Option SNode
  | .mk _ _ _ cs _ _ _ _, i => findNodeLoop cs i

def findNodeLoop : List SNode → PyVal → Option SNode
  | [], _ => Option.none
  | c :: rest, i =>
    if pyEqB c.id i then some c
    else if (SNode.find_node c i).isSome then some c
    else findNodeLoop rest i
end

/-- Dict lookup `child.other_attrs[key]` (string keys compare by content). -/
def attrsLookup (oa : List (String × PyVal)) (key : String) : Option PyVal :=
  (oa.find? (fun kv => kv.1 == key)).map Prod.snd

/-- The inner loop of `find_nodes` over `other_attrs.items()`: `add_child`
    is cleared when a key is missing from the child or the expected value
    differs. -/
def matchOtherAttrs (c : SNode) (other : List (String × PyVal)) : Bool :=
  other.all (fun kv =>
    match attrsLookup c.other_attrs kv.1 with
    | some v => pyEqB kv.2 v
    | Option.none => false)

mutual
/-- `find_nodes`.  The loop variable of `for key, value in
    other_attrs.items()` SHADOWS the `value` parameter: when `other_attrs`
    is nonempty, every recursive call — and every later sibling iteration —
    sees `value` rebound to the LAST attribute's expected value.  The
    threading of `value` through `findNodesLoop` reproduces this. -/
def SNode.find_nodes : SNode → PyVal → PyVal → Option NodeFun →
    List (String × PyVal) → List SNode
  | .mk _ _ _ cs _ _ _ _, name, value, function, other =>
    findNodesLoop cs name value function other

def findNodesLoop : List SNode → PyVal → PyVal → Option NodeFun →
    List (String × PyVal) → List SNode
  | [], _, _, _, _ => []
  | c :: rest, name, value, function, other =>
    let add1 := !(pyTruthy name && !pyEqB c.name name)
    let add2 := add1 && !(pyTruthy value && !pyEqB c.value value)
    let add3 := add2 && !(funTruthy function && !optFunEqB c.function function)
    let addFinal := add3 && matchOtherAttrs c other
    let value2 := match other.getLast? with
      | some kv => kv.2
      | Option.none => value
    (if addFinal then [c] else []) ++
      SNode.find_nodes c name value2 function other ++
      findNodesLoop rest name value2 function other
end

/-- Evaluating a node's `function` attribute: a string is parsed and run by
    `InEquality` (with the default `strings_to_numbers=True`), a callable is
    called. -/
def runNodeFun : NodeFun → Bindings → Except String PyVal
  | .expr s, kwargs => do
    let e ← InEquality.make s true
    let b ← e.call kwargs
    pure (.bool b)
  | .call _ f, kwargs => f kwargs

/-- Python `output is False` — an identity test against the `False`
    singleton, which only the exact boolean False passes. -/
def pyIsFalse : PyVal → Bool
  | .bool b => !b
  | _ => false

mutual
/-- Every node of the subtree rooted at `self`, itself included. -/
def SNode.allNodes : SNode → List SNode
  | n@(.mk _ _ _ cs _ _ _ _) => n :: allNodesList cs

def allNodesList : List SNode → List SNode
  | [] => []
  | c :: rest => SNode.allNodes c ++ allNodesList rest
end

theorem getChildLoop_mem {cs : List SNode} {nm : PyVal} {c : SNode}
    (h : getChildLoop cs nm = some c) : c ∈ cs := by
  induction cs with
  | nil => simp [getChildLoop] at h
  | cons x rest ih =>
    by_cases hx : pyEqB x.name nm = true
    · simp [getChildLoop, hx] at h
      simp [h]
    · simp [getChildLoop, hx] at h
      exact List.mem_cons_of_mem _ (ih h)

theorem sizeOf_lt_of_getChild {self c : SNode} {nm : PyVal}
    (h : self.get_child_from_name nm = some c) : sizeOf c < sizeOf self := by
  cases self with
  | mk n v i cs f ct cf oa =>
    have hmem : c ∈ cs := getChildLoop_mem (h := h)
    have hlt : sizeOf c < sizeOf cs := List.sizeOf_lt_of_mem hmem
    simp only [SNode.mk.sizeOf_spec]
    omega

/-- `run_as_binary_tree`: total by structural descent into a child. -/
def SNode.run_as_binary_tree (self : SNode) (kwargs : Bindings) :
    Except String SNode :=
  if funTruthy self.function = false then .ok self
  else
    match self.function with
    | Option.none => .ok self
    | some f =>
      match runNodeFun f kwargs with
      | .error e => .error e
      | .ok output =>
        if pyTruthy output then
          if pyTruthy self.child_name_if_true then
            match hc : self.get_child_from_name self.child_name_if_true with
            | some child => child.run_as_binary_tree kwargs
            | Option.none => .ok self
          else .ok self
        else if pyIsFalse output then
          if pyTruthy self.child_name_if_false then
            match hc : self.get_child_from_name self.child_name_if_false with
            | some child => child.run_as_binary_tree kwargs
            | Option.none => .ok self
          else .ok self
        else .ok self
termination_by sizeOf self
decreasing_by
  · exact sizeOf_lt_of_getChild (h := hc)
  · exact sizeOf_lt_of_getChild (h := hc)

/-! ### Serialization: `to_node_dict` / `from_node_dict` -/

/-- The dictionary produced by `to_node_dict`: every non-underscore
    attribute of `__dict__` except `children` copied by key, plus a
    `children` key holding the recursively serialized children. -/
inductive NodeDict : Type where
  | mk (name : PyVal) (value : PyVal) (id : PyVal)
       (function : Option NodeFun)
       (child_name_if_true : PyVal) (child_name_if_false : PyVal)
       (other_attrs : List (String × PyVal))
       (children : List NodeDict)

def NodeDict.name : NodeDict → PyVal
  | .mk n _ _ _ _ _ _ _ => n

def NodeDict.value : NodeDict → PyVal
  | .mk _ v _ _ _ _ _ _ => v

def NodeDict.id : NodeDict → PyVal
  | .mk _ _ i _ _ _ _ _ => i

def NodeDict.function : NodeDict → Option NodeFun
  | .mk _ _ _ f _ _ _ _ => f

def NodeDict.child_name_if_true : NodeDict → PyVal
  | .mk _ _ _ _ ct _ _ _ => ct

def NodeDict.child_name_if_false : NodeDict → PyVal
  | .mk _ _ _ _ _ cf _ _ => cf

def NodeDict.other_attrs : NodeDict → List (String × PyVal)
  | .mk _ _ _ _ _ _ oa _ => oa

def NodeDict.children : NodeDict → List NodeDict
  | .mk _ _ _ _ _ _ _ cs => cs

mutual
/-- `to_node_dict`. -/
def SNode.to_node_dict : SNode → NodeDict
  | .mk n v i cs f ct cf oa => .mk n v i f ct cf oa (toNodeDictList cs)

def toNodeDictList : List SNode → List NodeDict
  | [] => []
  | c :: rest => SNode.to_node_dict c :: toNodeDictList rest
end

/-- The object state of a receiver mutated by `from_node_dict`: the scalar
    fields are copied from the dictionary, while `children` is a Python
    list whose entries are the RETURN VALUES of the recursive
    `SuperNode().from_node_dict(child)` calls — and `from_node_dict` has no
    return statement, so each entry is Python None (`Option.none` here),
    never a reconstructed node. -/
inductive DeserNode : Type where
  | mk (name : PyVal) (value : PyVal) (id : PyVal)
       (function : Option NodeFun)
       (child_name_if_true : PyVal) (child_name_if_false : PyVal)
       (other_attrs : List (String × PyVal))
       (children : List (Option DeserNode))

def DeserNode.children : DeserNode → List (Option DeserNode)
  | .mk _ _ _ _ _ _ _ cs => cs

def DeserNode.name : DeserNode → PyVal
  | .mk n _ _ _ _ _ _ _ => n

def DeserNode.value : DeserNode → PyVal
  | .mk _ v _ _ _ _ _ _ => v

/-- The return value of the method `from_node_dict`: its body ends without
    a `return`, so every call returns Python None. -/
def from_node_dict_ret (_d : NodeDict) : Option DeserNode := Option.none

/-- The state of `SuperNode().from_node_dict(d)`'s receiver after the call:
    each non-`children` key of `d` is written to the matching attribute
    (every key produced by `to_node_dict` is a known attribute, so the
    unknown-key branch does not fire), then `children` is rebound to the
    list comprehension over the recursive calls' return values. -/
def from_node_dict_state (d : NodeDict) : DeserNode :=
  .mk d.name d.value d.id d.function d.child_name_if_true d.child_name_if_false
      d.other_attrs (d.children.map from_node_dict_ret)

/-! ## Verification of the claims -/

/-- `InEquality(s)(**kwargs)` with the given `strings_to_numbers` flag:
    construct, then call; a constructor error propagates. -/
def evaluateIneq (s : String) (kwargs : Bindings) (stn : Bool := true) :
    Except String Bool :=
  match InEquality.make s stn with
  | .ok e => e.call kwargs
  | .error m => .error m

/-- C2: the evaluator returns exactly the spec's pinned results:
    `"x == 10"` with x=7 is false; `"x == -10"` with x=-10 is true, the
    token `"-10"` failing the digit-only integer check and going through
    the decimal/float path; `"y != 9.01"` with y=9.01 is false;
    `"x[0] > x[1]"` with x=[10, 20] is false; `"x == y"` with x=10, y=10
    is true. -/
theorem c2_evaluator_pinned_results :
    evaluateIneq "x == 10" [("x", .int 7)] = .ok false ∧
    evaluateIneq "x == -10" [("x", .int (-10))] = .ok true ∧
    (isIntStr "-10" = false ∧ isDecimalStr "-10" = true ∧
      coerceRight (.str "-10") = .float (mkRat (-10) 1)) ∧
    evaluateIneq "y != 9.01" [("y", .float (mkRat 901 100))] = .ok false ∧
    evaluateIneq "x[0] > x[1]" [("x", .list [.int 10, .int 20])] = .ok false ∧
    evaluateIneq "x == y" [("x", .int 10), ("y", .int 10)] = .ok true :=
  ⟨rfl, rfl, ⟨rfl, rfl, rfl⟩, rfl, rfl, rfl⟩

/-- A leaf tree used by several counterexamples. -/
def leafNamed (nm : String) : SNode :=
  .mk (.str nm) PyVal.none PyVal.none [] Option.none PyVal.none PyVal.none []

/-- The one-child tree of the C1 counterexample. -/
def c1Child : SNode :=
  .mk (.str "a") (.int 1) PyVal.none [] Option.none PyVal.none PyVal.none []

def c1Tree : SNode :=
  .mk (.str "root") (.int 0) PyVal.none [c1Child] Option.none PyVal.none
      PyVal.none []

/-- C1 (code bug): round-tripping the one-child tree `c1Tree` through
    `to_node_dict` / `from_node_dict` does NOT reproduce its children: the
    recursive `SuperNode().from_node_dict(child)` calls return Python None
    (the method has no return statement), so the rebuilt node's `children`
    list is `[None]` — no child node, name or value survives — although the
    original tree has one child named "a".  The scalar fields of the root do
    come back. -/
theorem c1_from_node_dict_loses_children :
    (from_node_dict_state c1Tree.to_node_dict).children = [Option.none] ∧
    c1Tree.children.length = 1 ∧
    c1Child.name = .str "a" ∧
    (from_node_dict_state c1Tree.to_node_dict).name = .str "root" ∧
    (from_node_dict_state c1Tree.to_node_dict).value = .int 0 :=
  ⟨rfl, rfl, rfl, rfl, rfl⟩

/-- C4 (code bug): `insert` never inserts.  After coercing its argument and
    passing the duplicate-name check, the method calls `self.insert(index,
    node)` — itself, with identical arguments — instead of
    `self.children.insert(...)`; the recursion never terminates (Python
    RecursionError) and `children` is never modified.  Formally: for every
    amount of fuel, every receiver, index, and argument that does not trip
    the duplicate-name check, execution is still recursing when the fuel
    runs out. -/
theorem c4_insert_recurses_forever (self : SNode) (index : Int) (arg : NodeOrVal)
    (h : nameInList (objectToNode arg).name self.get_children_names = false) :
    ∀ fuel : Nat, self.insertFuel fuel index arg = Option.none := by
  have main : ∀ (fuel : Nat) (a : NodeOrVal),
      nameInList (objectToNode a).name self.get_children_names = false →
      self.insertFuel fuel index a = Option.none := by
    intro fuel
    induction fuel with
    | zero => intro a _; rfl
    | succ n ih =>
      intro a ha
      simp only [SNode.insertFuel, ha, Bool.false_eq_true, if_false]
      exact ih (.node (objectToNode a)) (by simpa [objectToNode] using ha)
  exact fun fuel => main fuel arg h

/-- Witness for C4 at a concrete input: a parent with no children,
    inserting a node named "a" at index 0. -/
theorem c4_insert_recurses_forever_witness :
    (leafNamed "p").insertFuel 100 0 (.node (leafNamed "a")) = Option.none :=
  c4_insert_recurses_forever (leafNamed "p") 0 (.node (leafNamed "a")) rfl 100

theorem mem_children_names {p c : SNode} (hc : c ∈ p.children)
    (hn : c.name.isNone = false) : c.name ∈ p.get_children_names := by
  unfold SNode.get_children_names
  exact List.mem_map_of_mem _ (List.mem_filter.mpr ⟨hc, by simp [hn]⟩)

theorem children_names_mem {p : SNode} {nm : PyVal}
    (h : nm ∈ p.get_children_names) :
    ∃ c ∈ p.children, c.name.isNone = false ∧ c.name = nm := by
  unfold SNode.get_children_names at h
  obtain ⟨c, hcf, rfl⟩ := List.mem_map.mp h
  obtain ⟨hc, hnn⟩ := List.mem_filter.mp hcf
  exact ⟨c, hc, by simpa using hnn, rfl⟩

/-- C5: appending a node whose name `==`-collides with the non-null name of
    an existing child raises the duplicate-name ValueError (the tree, being
    returned only on success, is untouched); appending a node colliding
    with no existing child's (non-null) name appends it at the end of
    `children`. -/
theorem c5_append_duplicate_rejected (p : SNode) (arg : NodeOrVal) :
    ((∃ c ∈ p.children, c.name.isNone = false ∧
        pyEqB (objectToNode arg).name c.name = true) →
      p.append arg =
        .error "ValueError: Two children of the same Node cannot have the same 'name' attribute.") ∧
    ((∀ c ∈ p.children, c.name.isNone = false →
        pyEqB (objectToNode arg).name c.name = false) →
      p.append arg = .ok (p.withChildren (p.children ++ [objectToNode arg]))) := by
  constructor
  · rintro ⟨c, hc, hn, he⟩
    have hin : nameInList (objectToNode arg).name p.get_children_names = true := by
      unfold nameInList
      exact List.any_eq_true.mpr ⟨c.name, mem_children_names hc hn, he⟩
    simp [SNode.append, hin]
  · intro hall
    have hin : nameInList (objectToNode arg).name p.get_children_names = false := by
      unfold nameInList
      rw [List.any_eq_false]
      intro nm hnm
      obtain ⟨c, hc, hnn, rfl⟩ := children_names_mem hnm
      simp [hall c hc hnn]
    simp [SNode.append, hin]

/-- The parent/children used by the C5 witness. -/
def c5Parent : SNode :=
  .mk (.str "p") PyVal.none PyVal.none [leafNamed "a"] Option.none PyVal.none
      PyVal.none []

/-- Witness for C5: appending a second "a" fails; appending a "b"
    succeeds and lands at the end. -/
theorem c5_append_duplicate_rejected_witness :
    (c5Parent.append (.node (leafNamed "a")) =
      .error "ValueError: Two children of the same Node cannot have the same 'name' attribute.") ∧
    (c5Parent.append (.node (leafNamed "b")) =
      .ok (c5Parent.withChildren (c5Parent.children ++ [leafNamed "b"]))) :=
  ⟨(c5_append_duplicate_rejected c5Parent (.node (leafNamed "a"))).1
      ⟨leafNamed "a", by simp [c5Parent, SNode.children], rfl, rfl⟩,
   (c5_append_duplicate_rejected c5Parent (.node (leafNamed "b"))).2
      (by
        intro c hc _
        simp only [c5Parent, SNode.children] at hc
        simp only [List.mem_singleton] at hc
        subst hc
        rfl)⟩

/-- C6 (code bug): `split` cannot take a `names` list at all.  The loop
    `for attr in [names, values, ids, functions, other_attrs_lists]`
    evaluates `attr.__name__` for every truthy entry (in the assignment
    `attrs[attr.__name__] = attr` when the length matches, and inside the
    f-string of the `raise` when it does not), and a Python list has no
    `__name__` attribute — so `split(num=2, names=["a", "b"])` raises
    AttributeError, appends nothing, and never reaches the length check.
    Only a call with every optional list falsy succeeds; it appends `num`
    all-None children. -/
theorem c6_split_names_raises_attribute_error :
    (leafNamed "p").split 2 (some [.str "a", .str "b"]) Option.none Option.none
      Option.none [] =
      .error "AttributeError: 'list' object has no attribute '__name__'" ∧
    (leafNamed "p").split 2 (some [.str "a"]) Option.none Option.none
      Option.none [] =
      .error "AttributeError: 'list' object has no attribute '__name__'" ∧
    (leafNamed "p").split 2 Option.none Option.none Option.none Option.none [] =
      .ok ((leafNamed "p").withChildren
            ((leafNamed "p").children ++
              [SNode.mk PyVal.none PyVal.none PyVal.none [] Option.none PyVal.none PyVal.none [],
               SNode.mk PyVal.none PyVal.none PyVal.none [] Option.none PyVal.none PyVal.none []]),
           [SNode.mk PyVal.none PyVal.none PyVal.none [] Option.none PyVal.none PyVal.none [],
            SNode.mk PyVal.none PyVal.none PyVal.none [] Option.none PyVal.none PyVal.none []]) :=
  ⟨rfl, rfl, rfl⟩

/-- The depth-two tree of the C7 counterexample: the grandchild carries the
    searched id. -/
def c7Grandchild : SNode :=
  .mk (.str "g") PyVal.none (.str "target") [] Option.none PyVal.none PyVal.none []

def c7Child : SNode :=
  .mk (.str "c") PyVal.none (.str "other") [c7Grandchild] Option.none PyVal.none
      PyVal.none []

def c7Root : SNode :=
  .mk (.str "r") PyVal.none PyVal.none [c7Child] Option.none PyVal.none
      PyVal.none []

/-- C7 (code bug): when the only node with the searched id sits at depth
    two, `find_node` returns the depth-one CHILD on whose subtree the
    recursive search succeeded (`return child` instead of returning the
    recursive result), not the matching descendant: here it returns the
    node with id "other", although the match is the grandchild with id
    "target". -/
theorem c7_find_node_returns_ancestor :
    c7Root.find_node (.str "target") = some c7Child ∧
    pyEqB c7Child.id (.str "target") = false ∧
    c7Child.children = [c7Grandchild] ∧
    pyEqB c7Grandchild.id (.str "target") = true :=
  ⟨rfl, rfl, rfl, rfl⟩

/-- The tree of the C8 counterexample: child and grandchild both carry the
    attribute color = "red" but different `value`s. -/
def c8Grandchild : SNode :=
  .mk (.str "g") (.int 2) PyVal.none [] Option.none PyVal.none PyVal.none
      [("color", .str "red")]

def c8Child : SNode :=
  .mk (.str "c") (.int 1) PyVal.none [c8Grandchild] Option.none PyVal.none
      PyVal.none [("color", .str "red")]

def c8Root : SNode :=
  .mk (.str "r") PyVal.none PyVal.none [c8Child] Option.none PyVal.none
      PyVal.none []

/-- C8 (code bug): `find_nodes(color="red")` — the `value` criterion not
    supplied — must, per the claim, return every descendant carrying
    color = "red", i.e. both the child and the grandchild.  But the loop
    `for key, value in other_attrs.items()` rebinds the `value` parameter,
    so the recursive call filters depth-two descendants with
    `value = "red"`: the grandchild (value 2, color "red") is dropped even
    though it satisfies the attribute criterion. -/
theorem c8_find_nodes_value_shadowed :
    c8Root.find_nodes PyVal.none PyVal.none Option.none [("color", .str "red")] =
      [c8Child] ∧
    matchOtherAttrs c8Grandchild [("color", .str "red")] = true ∧
    c8Child.children = [c8Grandchild] :=
  ⟨rfl, rfl, rfl⟩

/-- C9 (code bug): multi-suffix indexing does not work, and indexing is not
    independent of the coercion flag.  (1) `re.findall(r"\w+\[(.+)\]",
    "x[1][2]")` captures the single greedy group "1][2", so evaluating
    `x[1][2] == 6` against x=[[1,2,3],[4,5,6]] indexes the list with the
    string "1][2" and raises TypeError instead of resolving element 2 of
    element 1.  (2) With `strings_to_numbers=False` the index-application
    loops (which sit inside `if self.strings_to_numbers:`) are skipped:
    `x[0] == 5` with x=[5] is True with coercion on but False with
    coercion off, the left operand staying the whole list. -/
theorem c9_bracket_indexing_diverges :
    reFindallWordBracket "x[1][2]" = ["1][2"] ∧
    evaluateIneq "x[1][2] == 6"
      [("x", .list [.list [.int 1, .int 2, .int 3],
                    .list [.int 4, .int 5, .int 6]])] =
      .error "TypeError: indices must be integers" ∧
    evaluateIneq "x[0] == 5" [("x", .list [.int 5])] true = .ok true ∧
    evaluateIneq "x[0] == 5" [("x", .list [.int 5])] false = .ok false :=
  ⟨rfl, rfl, rfl, rfl⟩

/-! ### C3, C10: the decision router -/

/-- Hypothesis of the router claims: every `function` attached anywhere in
    the tree evaluates without raising under the given bindings (the
    visited nodes form a subset of `allNodes`). -/
def AllFuncsOk (n : SNode) (kwargs : Bindings) : Prop :=
  ∀ m ∈ n.allNodes, ∀ f, m.function = some f →
    ∃ v, runNodeFun f kwargs = Except.ok v

theorem self_mem_allNodes (n : SNode) : n ∈ n.allNodes := by
  cases n with
  | mk a b c cs f ct cf oa => simp [SNode.allNodes]

theorem mem_allNodesList_of_mem {c m : SNode} {cs : List SNode}
    (hc : c ∈ cs) (hm : m ∈ c.allNodes) : m ∈ allNodesList cs := by
  induction cs with
  | nil => simp at hc
  | cons x rest ih =>
    rw [allNodesList]
    rcases List.mem_cons.mp hc with h1 | h2
    · subst h1; exact List.mem_append_left _ hm
    · exact List.mem_append_right _ (ih h2)

theorem mem_allNodes_of_child {n c m : SNode} (hc : c ∈ n.children)
    (hm : m ∈ c.allNodes) : m ∈ n.allNodes := by
  cases n with
  | mk a b c' cs f ct cf oa =>
    simp only [SNode.children] at hc
    rw [SNode.allNodes]
    exact List.mem_cons_of_mem _ (mem_allNodesList_of_mem hc hm)

theorem allFuncsOk_child {n c : SNode} {kwargs : Bindings}
    (h : AllFuncsOk n kwargs) (hc : c ∈ n.children) : AllFuncsOk c kwargs :=
  fun m hm f hf => h m (mem_allNodes_of_child hc hm) f hf

theorem get_child_mem {self c : SNode} {nm : PyVal}
    (h : self.get_child_from_name nm = some c) : c ∈ self.children :=
  getChildLoop_mem h

/-- Totality of the router: when every attached function evaluates, the
    run ends with `.ok` at some node. -/
theorem run_ok_of_funcsOk : ∀ (k : Nat) (n : SNode) (kwargs : Bindings),
    sizeOf n ≤ k → AllFuncsOk n kwargs →
    ∃ r, n.run_as_binary_tree kwargs = Except.ok r := by
  intro k
  induction k with
  | zero =>
    intro n kwargs hk _
    cases n with
    | mk a b c cs f ct cf oa => simp [SNode.mk.sizeOf_spec] at hk
  | succ k ih =>
    intro n kwargs hk h
    rw [SNode.run_as_binary_tree]
    split
    · exact ⟨n, rfl⟩
    · split
      · exact ⟨n, rfl⟩
      · rename_i hft f hf
        split
        · rename_i e he
          obtain ⟨v, hv⟩ := h n (self_mem_allNodes n) f hf
          rw [hv] at he
          exact absurd he (by simp)
        · rename_i output hout
          split
          · split
            · split
              · rename_i child hchild
                have hcm : child ∈ n.children := get_child_mem hchild
                have : sizeOf child < sizeOf n := sizeOf_lt_of_getChild hchild
                exact ih child kwargs (by omega) (allFuncsOk_child h hcm)
              · exact ⟨n, rfl⟩
            · exact ⟨n, rfl⟩
          · split
            · split
              · split
                · rename_i child hchild
                  have hcm : child ∈ n.children := get_child_mem hchild
                  have : sizeOf child < sizeOf n := sizeOf_lt_of_getChild hchild
                  exact ih child kwargs (by omega) (allFuncsOk_child h hcm)
                · exact ⟨n, rfl⟩
              · exact ⟨n, rfl⟩
            · exact ⟨n, rfl⟩

theorem pyTruthy_of_isFalse {v : PyVal} (h : pyIsFalse v = true) :
    pyTruthy v = false := by
  cases v <;> simp [pyIsFalse] at h ⊢ <;> simp [pyTruthy, h]

/-- C3: for every start node and every binding set under which each
    attached function evaluates without raising, `run_as_binary_tree`
    returns a node (never raises); and whenever the current node has no
    (truthy) function, or the function's result selects no usable labeled
    child — the branch name falsy/absent, or no direct child bearing that
    name, or the result neither truthy nor the exact `False` — the router
    returns the current node itself. -/
theorem c3_router_total_and_terminal (n : SNode) (kwargs : Bindings)
    (h : AllFuncsOk n kwargs) :
    (∃ r, n.run_as_binary_tree kwargs = Except.ok r) ∧
    (funTruthy n.function = false →
      n.run_as_binary_tree kwargs = Except.ok n) ∧
    (∀ f output, n.function = some f →
      runNodeFun f kwargs = Except.ok output →
      ((pyTruthy output = true ∧ (pyTruthy n.child_name_if_true = false ∨
          n.get_child_from_name n.child_name_if_true = Option.none)) →
        n.run_as_binary_tree kwargs = Except.ok n) ∧
      ((pyIsFalse output = true ∧ (pyTruthy n.child_name_if_false = false ∨
          n.get_child_from_name n.child_name_if_false = Option.none)) →
        n.run_as_binary_tree kwargs = Except.ok n) ∧
      ((pyTruthy output = false ∧ pyIsFalse output = false) →
        n.run_as_binary_tree kwargs = Except.ok n)) := by
  refine ⟨run_ok_of_funcsOk (sizeOf n) n kwargs le_rfl h, ?_, ?_⟩
  · intro hft
    rw [SNode.run_as_binary_tree]
    simp [hft]
  · intro f output hf hout
    by_cases hft : funTruthy n.function = false
    · have hr : n.run_as_binary_tree kwargs = Except.ok n := by
        rw [SNode.run_as_binary_tree]; simp [hft]
      exact ⟨fun _ => hr, fun _ => hr, fun _ => hr⟩
    · refine ⟨?_, ?_, ?_⟩
      · rintro ⟨hT, hbad⟩
        rw [SNode.run_as_binary_tree]
        rw [if_neg hft]
        simp only [hf, hout, hT, if_true]
        split
        · split
          · rename_i child heq
            rcases hbad with hb | hb
            · rename_i hcnt; rw [hb] at hcnt; simp at hcnt
            · rw [hb] at heq; simp at heq
          · rfl
        · rfl
      · rintro ⟨hF, hbad⟩
        have hTf : pyTruthy output = false := pyTruthy_of_isFalse hF
        rw [SNode.run_as_binary_tree]
        rw [if_neg hft]
        simp only [hf, hout, hTf, hF, Bool.false_eq_true, if_false, if_true]
        split
        · split
          · rename_i child heq
            rcases hbad with hb | hb
            · rename_i hcnf; rw [hb] at hcnf; simp at hcnf
            · rw [hb] at heq; simp at heq
          · rfl
        · rfl
      · rintro ⟨hTf, hFf⟩
        rw [SNode.run_as_binary_tree]
        rw [if_neg hft]
        simp only [hf, hout, hTf, hFf, Bool.false_eq_true, if_false]

/-- The two-node tree of the C3 witness: the root's expression routes to
    child "a". -/
def c3Child : SNode := leafNamed "a"

def c3Root : SNode :=
  .mk (.str "root") PyVal.none PyVal.none [c3Child] (some (.expr "x > 1"))
      (.str "a") PyVal.none []

/-- Witness for C3 at a concrete tree and binding set (x = 5). -/
theorem c3_router_total_and_terminal_witness :
    (∃ r, c3Root.run_as_binary_tree [("x", .int 5)] = Except.ok r) ∧
    (funTruthy c3Root.function = false →
      c3Root.run_as_binary_tree [("x", .int 5)] = Except.ok c3Root) ∧
    (∀ f output, c3Root.function = some f →
      runNodeFun f [("x", .int 5)] = Except.ok output →
      ((pyTruthy output = true ∧ (pyTruthy c3Root.child_name_if_true = false ∨
          c3Root.get_child_from_name c3Root.child_name_if_true = Option.none)) →
        c3Root.run_as_binary_tree [("x", .int 5)] = Except.ok c3Root) ∧
      ((pyIsFalse output = true ∧ (pyTruthy c3Root.child_name_if_false = false ∨
          c3Root.get_child_from_name c3Root.child_name_if_false = Option.none)) →
        c3Root.run_as_binary_tree [("x", .int 5)] = Except.ok c3Root) ∧
      ((pyTruthy output = false ∧ pyIsFalse output = false) →
        c3Root.run_as_binary_tree [("x", .int 5)] = Except.ok c3Root)) :=
  c3_router_total_and_terminal c3Root [("x", .int 5)] (by
    intro m hm f hf
    simp only [c3Root, c3Child, leafNamed, SNode.allNodes, allNodesList,
      List.append_nil, List.mem_cons, List.not_mem_nil, or_false] at hm
    rcases hm with hm | hm
    · subst hm
      simp only [SNode.function, Option.some.injEq] at hf
      subst hf
      exact ⟨.bool true, rfl⟩
    · subst hm
      simp only [SNode.function] at hf
      exact absurd hf (by simp))

/-- C10: when a node's callable function returns a falsy value other than
    the exact boolean False (0, None, "", ...), the router returns that
    node itself — the false branch is only taken on `output is False` —
    regardless of `child_name_if_false` being set and naming an existing
    child. -/
theorem c10_falsy_non_false_returns_self (n : SNode) (kwargs : Bindings)
    (t : Nat) (g : Bindings → Except String PyVal) (v : PyVal)
    (hf : n.function = some (.call t g)) (hv : g kwargs = Except.ok v)
    (hfalsy : pyTruthy v = false) (hnb : pyIsFalse v = false) :
    n.run_as_binary_tree kwargs = Except.ok n := by
  rw [SNode.run_as_binary_tree]
  rw [if_neg (by rw [hf]; simp [funTruthy])]
  simp only [hf, runNodeFun, hv, hfalsy, hnb, Bool.false_eq_true, if_false]

/-- The C10 witness node: its callable returns int 0 (falsy, not False),
    `child_name_if_false` is set to "b", and a child named "b" exists. -/
def c10Child : SNode := leafNamed "b"

def c10Fun : Bindings → Except String PyVal := fun _ => Except.ok (.int 0)

def c10Node : SNode :=
  .mk (.str "n") PyVal.none PyVal.none [c10Child] (some (.call 0 c10Fun))
      PyVal.none (.str "b") []

/-- Witness for C10: the false-branch name is truthy and resolves to an
    existing child, yet the router returns the node itself. -/
theorem c10_falsy_non_false_returns_self_witness :
    pyTruthy c10Node.child_name_if_false = true ∧
    (c10Node.get_child_from_name c10Node.child_name_if_false).isSome = true ∧
    c10Node.run_as_binary_tree [] = Except.ok c10Node :=
  ⟨rfl, rfl,
   c10_falsy_non_false_returns_self c10Node [] 0 c10Fun (.int 0) rfl rfl rfl rfl⟩

end SuperNodes
